import Mathlib

/-!
Verification of the fan-out tool discovery half and the event-streaming
bridge half of the azure-ai-travel-agents Python API, as a shallow
embedding in Lean 4.

Embedded source files:
  * src/packages/api-python/src/orchestrator/tools/tool_config.py
  * src/src/api-python/src/orchestrator/tools/tool_registry.py
  * src/src/api-python/src/orchestrator/workflow.py  (initialize)
  * src/src/api-python/src/orchestrator/magentic_workflow.py
  * src/packages/api-python/src/main.py  (chat.event_generator)

Conventions: async code is modelled by passing the outcome of each
suspension point (network probe results, producer termination) as an
explicit environment value; the producer/consumer queue of the event
bridge is modelled both as a sequential drain function and as a small
step relation between bridge states.  Python dict payloads are modelled
as records whose optional fields are `Option` (`none` = key absent or
null); heterogeneous payload values under the "data" key are rendered
as strings.
-/

namespace TravelAgents

/-- Relevant settings fields read by tool_config.get_mcp_tools_config. -/
structure Settings where
  mcp_echo_ping_url : String
  mcp_customer_query_url : String
  mcp_itinerary_planning_url : String
deriving DecidableEq

/-- MCPServerConfig from tool_config.py: url, type, verbose. -/
structure MCPServerConfig where
  url : String
  schemeType : String
  verbose : Bool
deriving DecidableEq

/-- MCPServerDefinition from tool_config.py: config, id, name. -/
structure MCPServerDefinition where
  config : MCPServerConfig
  id : String
  name : String
deriving DecidableEq

/-- MCP_API_HTTP_PATH from tool_config.py. -/
def MCP_API_HTTP_PATH : String := "/mcp"

/-- get_mcp_tools_config from tool_config.py: the three uncommented
entries (echo-ping, customer-query, itinerary-planning), as an
association list in insertion order. -/
def get_mcp_tools_config (s : Settings) : List (String × MCPServerDefinition) :=
  [ ("echo-ping",
      { config := { url := s.mcp_echo_ping_url ++ MCP_API_HTTP_PATH,
                    schemeType := "http", verbose := true },
        id := "echo-ping", name := "Echo Test" }),
    ("customer-query",
      { config := { url := s.mcp_customer_query_url ++ MCP_API_HTTP_PATH,
                    schemeType := "http", verbose := true },
        id := "customer-query", name := "Customer Query" }),
    ("itinerary-planning",
      { config := { url := s.mcp_itinerary_planning_url ++ MCP_API_HTTP_PATH,
                    schemeType := "http", verbose := true },
        id := "itinerary-planning", name := "Itinerary Planning" }) ]

/-- One entry of ToolRegistry._server_metadata, as written by
ToolRegistry._initialize_metadata. -/
structure MetadataEntry where
  id : String
  name : String
  url : String
  schemeType : String
  selected : Bool
  accessToken : Option String
deriving DecidableEq

/-- ToolRegistry._initialize_metadata: one metadata entry per configured
server, in configuration order.  `selected` is set to
`server_id != "echo-ping"`; the configuration carries no accessToken key,
so `config.get("accessToken")` is `none`. -/
def initialize_metadata (cfg : List (String × MCPServerDefinition)) :
    List MetadataEntry :=
  cfg.map (fun p =>
    { id := p.1, name := p.2.name, url := p.2.config.url,
      schemeType := p.2.config.schemeType,
      selected := p.1 != "echo-ping",
      accessToken := none })

/-- The registry state built by ToolRegistry.__init__ for given settings. -/
def registry_init (s : Settings) : List MetadataEntry :=
  initialize_metadata (get_mcp_tools_config s)

/-- The public operations of ToolRegistry.  create_mcp_tool,
get_server_metadata and list_tools read the metadata; close_all clears it. -/
inductive RegistryOp where
  | createTool (serverId : String)
  | getMetadata (serverId : String)
  | listToolsOp
  | closeAll
deriving DecidableEq

/-- Effect of one registry operation on the metadata table. -/
def applyOp (st : List MetadataEntry) : RegistryOp → List MetadataEntry
  | .closeAll => []
  | _ => st

/-- Effect of a sequence of registry operations. -/
def applyOps (st : List MetadataEntry) : List RegistryOp → List MetadataEntry
  | [] => st
  | op :: ops => applyOps (applyOp st op) ops

/-- A tool entry as built inside check_server_and_list_tools
(name and description taken from tool.metadata). -/
structure ToolInfo where
  name : String
  description : String
deriving DecidableEq

/-- The per-server dict built by check_server_and_list_tools
(`error` models the "error" key, absent unless an exception was caught). -/
structure ServerInfo where
  id : String
  name : String
  url : String
  schemeType : String
  reachable : Bool
  selected : Bool
  tools : List ToolInfo
  error : Option String
deriving DecidableEq

/-- What the network does after the MCP connection has been entered:
the tool listing converts cleanly, or an exception is raised inside the
`async with` block before `server_info["tools"]` is assigned. -/
inductive ListingOutcome where
  | ok (tools : List ToolInfo)
  | listFail (msg : String)
deriving DecidableEq

/-- Outcome of one probe attempt, covering every control path of
check_server_and_list_tools: create_mcp_tool returned None (server id
absent from the registry), entering the connection raised, or the
connection was entered. -/
inductive ConnectOutcome where
  | noTool
  | connectFail (msg : String)
  | connected (listing : ListingOutcome)
deriving DecidableEq

/-- check_server_and_list_tools from ToolRegistry.list_tools: starts from
a base dict with reachable=False, selected and identity copied from the
metadata; on `noTool` returns the base unchanged (no error key); an
exception entering the connection is caught and stored as
`server_info["error"] = str(error)`; once connected, reachable is set to
True first, then the listing either fills `tools` or raises, in which
case the error is caught while reachable stays True and tools stays []. -/
def check_server_and_list_tools (m : MetadataEntry) (o : ConnectOutcome) :
    ServerInfo :=
  let base : ServerInfo :=
    { id := m.id, name := m.name, url := m.url, schemeType := m.schemeType,
      reachable := false, selected := m.selected, tools := [], error := none }
  match o with
  | .noTool => base
  | .connectFail msg => { base with error := some msg }
  | .connected (.ok tools) => { base with reachable := true, tools := tools }
  | .connected (.listFail msg) => { base with reachable := true, error := some msg }

/-- Status of one probe task when the overall wait ends: finished with
an outcome before the 10 s deadline, or still outstanding when the
deadline elapsed, in which case asyncio.wait_for cancels it and awaits
the cancellation, leaving it done-cancelled by the time the
except-TimeoutError branch runs. -/
inductive ProbeStatus where
  | done (o : ConnectOutcome)
  | pending
deriving DecidableEq

/-- Whether the probe task has finished. -/
def ProbeStatus.isDone : ProbeStatus → Bool
  | .done _ => true
  | .pending => false

/-- The outcome of a finished probe.  The default branch is never used:
every call site is guarded by `isDone`. -/
def ProbeStatus.doneOutcome : ProbeStatus → ConnectOutcome
  | .done o => o
  | .pending => ConnectOutcome.noTool

/-- What a call to ToolRegistry.list_tools does: return the per-server
entry list, or terminate abnormally with the CancelledError that escapes
the recovery loop of its timeout branch. -/
inductive ListToolsResult where
  | ok (entries : List ServerInfo)
  | cancelledError
deriving DecidableEq

/-- The recovery loop of the `except asyncio.TimeoutError` branch of
ToolRegistry.list_tools.  By the time the branch runs, asyncio.wait_for
has cancelled the inner gather and awaited that cancellation, so every
task is done: a task that completed normally is done and contributes
`task.result()`; a task that was still outstanding at the deadline is
done-cancelled, so `task.done()` is also true and its `task.result()`
raises CancelledError, which derives from BaseException (Python 3.8+)
and is not caught by the `except Exception` inside the loop — the
CancelledError escapes and aborts the whole call, discarding the
partial list (the `task.cancel()` else-branch is unreachable). -/
def recover_results (env : String → ProbeStatus) :
    List MetadataEntry → List ServerInfo → ListToolsResult
  | [], acc => ListToolsResult.ok acc
  | m :: rest, acc =>
    match env m.id with
    | .done o =>
        recover_results env rest (acc ++ [check_server_and_list_tools m o])
    | .pending => ListToolsResult.cancelledError

/-- ToolRegistry.list_tools: one task per metadata entry, in registry
order, raced against the 10 s overall timeout.  If every task finishes
first, asyncio.gather returns one result per task in task order.
Otherwise asyncio.wait_for cancels the gather, awaits the cancellation
and raises TimeoutError, and the recovery loop walks the tasks in order
until the first done-cancelled straggler, whose result() raises
CancelledError past `except Exception`: the call aborts instead of
returning a mapping. -/
def list_tools (st : List MetadataEntry) (env : String → ProbeStatus) :
    ListToolsResult :=
  if st.all (fun m => (env m.id).isDone) then
    ListToolsResult.ok
      (st.map (fun m => check_server_and_list_tools m (env m.id).doneOutcome))
  else
    recover_results env st []

/-- request_timeout passed to MCPStreamableHTTPTool in
ToolRegistry.create_mcp_tool (seconds). -/
def create_mcp_tool_request_timeout : Nat := 30

/-- The overall timeout passed to asyncio.wait_for in
ToolRegistry.list_tools (seconds, the literal 10.0). -/
def list_tools_overall_timeout : Nat := 10

/-- Outcome of MCPToolWrapper construction plus wrapper.get_tools() for
one server during TravelWorkflowOrchestrator.initialize: the list of
tools loaded from that server, or an exception caught by the
surrounding try/except.  Tools are identified by name. -/
inductive ToolFetchOutcome where
  | ok (tools : List String)
  | failed (msg : String)
deriving DecidableEq

/-- Whether the fetch succeeded. -/
def ToolFetchOutcome.isOk : ToolFetchOutcome → Bool
  | .ok _ => true
  | .failed _ => false

/-- The tools of a successful fetch ([] for a failed one). -/
def ToolFetchOutcome.toolsOr : ToolFetchOutcome → List String
  | .ok ts => ts
  | .failed _ => []

/-- The accumulating state of the tool-loading loop in
TravelWorkflowOrchestrator.initialize: tools_by_server and all_tools
(the mcp_wrappers dict is not modelled; no claim depends on it). -/
structure InitToolsState where
  tools_by_server : List (String × List String)
  all_tools : List String
deriving DecidableEq

/-- The `for tool_id in enabled_tools` loop of
TravelWorkflowOrchestrator.initialize: ids absent from MCP_TOOLS_CONFIG
are skipped; for the rest, get_tools either succeeds and the tools are
recorded and appended to all_tools, or raises and the exception is
caught leaving both accumulators unchanged. -/
def init_tools_loop (cfgIds : List String) (fetch : String → ToolFetchOutcome) :
    List String → InitToolsState → InitToolsState
  | [], st => st
  | tool_id :: rest, st =>
    if cfgIds.contains tool_id then
      match fetch tool_id with
      | .ok ts =>
          init_tools_loop cfgIds fetch rest
            { tools_by_server := st.tools_by_server ++ [(tool_id, ts)],
              all_tools := st.all_tools ++ ts }
      | .failed _ => init_tools_loop cfgIds fetch rest st
    else
      init_tools_loop cfgIds fetch rest st

/-- TravelWorkflowOrchestrator.initialize starting from the empty state
built by __init__. -/
def initialize_tools (cfgIds : List String) (enabled : List String)
    (fetch : String → ToolFetchOutcome) : InitToolsState :=
  init_tools_loop cfgIds fetch enabled { tools_by_server := [], all_tools := [] }

/-- The default enabled_tools list of
TravelWorkflowOrchestrator.initialize (used when the caller passes None). -/
def default_enabled_tools : List String :=
  [ "customer-query", "web-search", "itinerary-planning",
    "model-inference", "code-evaluation", "destination-recommendation" ]

/-!  Event-streaming bridge: magentic_workflow.py and main.py.  -/

/-- The Microsoft Agent Framework callback events consumed by
MagenticTravelOrchestrator._convert_workflow_event.  Optional text
fields model `event.message` being None / getattr defaults. -/
inductive MafEvent where
  | orchestratorMessage (kind : String) (text : String)
  | agentDelta (agentId : Option String) (text : String)
  | agentMessage (agentId : Option String) (text : String) (role : Option String)
  | finalResult (text : Option String)
  | workflowOutput (data : Option String)
  | otherEvent
deriving DecidableEq

/-- Python str.title on one character stream: an alphabetic character is
uppercased when the previous character is not alphabetic and lowercased
otherwise. -/
def pyTitleAux : Bool → List Char → List Char
  | _, [] => []
  | prevAlpha, c :: cs =>
    (if c.isAlpha then (if prevAlpha then c.toLower else c.toUpper) else c)
      :: pyTitleAux c.isAlpha cs

/-- Python str.title for the ASCII event-kind strings involved. -/
def pyTitle (s : String) : String := ⟨pyTitleAux false s.data⟩

/-- Python str.replace of underscores by the empty string. -/
def dropUnderscores (s : String) : String := ⟨s.data.filter (fun c => c ≠ '_')⟩

/-- The nested "error" dict of the ServiceError event built in
run_workflow: message, statusCode and reason.message. -/
structure ErrorBody where
  message : String
  statusCode : Nat
  reasonMessage : String
deriving DecidableEq

/-- An internal event dict as produced by _convert_workflow_event or by
the error branches of run_workflow.  `none` in an Option field means the
key is absent or null; the heterogeneous values under the "data" key are
rendered as strings (None as "None", True as "True"). -/
structure ChatEvent where
  eventType : String
  agent : Option String
  event : String
  message : Option String
  statusCode : Option Nat
  data : List (String × String)
  errorBody : Option ErrorBody
deriving DecidableEq

/-- MagenticTravelOrchestrator._convert_workflow_event: maps each MAF
callback event to the UI event dict, or None for events that are not
surfaced. -/
def convert_workflow_event : MafEvent → Option ChatEvent
  | .orchestratorMessage kind text =>
      some { eventType := "metadata", agent := some "Orchestrator",
             event := "Orchestrator" ++ dropUnderscores (pyTitle kind),
             message := none, statusCode := none,
             data := [("agent", "Orchestrator"), ("message", text), ("kind", kind)],
             errorBody := none }
  | .agentDelta agentId text =>
      let aid := agentId.getD "UnknownAgent"
      some { eventType := "metadata", agent := some aid,
             event := "AgentDelta", message := none, statusCode := none,
             data := [("agent", aid), ("delta", text)], errorBody := none }
  | .agentMessage agentId text role =>
      let aid := agentId.getD "UnknownAgent"
      some { eventType := "metadata", agent := some aid,
             event := "AgentMessage", message := none, statusCode := none,
             data := [("agent", aid), ("message", text), ("role", role.getD "None")],
             errorBody := none }
  | .finalResult text =>
      some { eventType := "metadata", agent := none,
             event := "FinalResult", message := none, statusCode := none,
             data := [("agent", "None"), ("message", text.getD "Task completed"),
                      ("completed", "True")],
             errorBody := none }
  | .workflowOutput data =>
      some { eventType := "metadata", agent := none,
             event := "WorkflowComplete", message := none, statusCode := none,
             data := [("agent", "None"), ("output", data.getD "Workflow completed"),
                      ("completed", "True")],
             errorBody := none }
  | .otherEvent => none

/-- How the workflow producer passed to run_workflow terminates:
normally, with a ServiceResponseException, or with any other exception. -/
inductive ProducerTermination where
  | normal
  | serviceError (msg : String)
  | fault (msg : String)
deriving DecidableEq

/-- One run of workflow.run_stream: the MAF events it emitted before
terminating, and how it terminated. -/
structure ProducerRun where
  events : List MafEvent
  termination : ProducerTermination
deriving DecidableEq

/-- The error_event dict built by the `except ServiceResponseException`
branch of run_workflow (keys: type, event, error). -/
def service_error_event (msg : String) : ChatEvent :=
  { eventType := "error", agent := none, event := "ServiceError",
    message := none, statusCode := none, data := [],
    errorBody := some
      { message := "Request timed out or service unavailable. Please try again.",
        statusCode := 504, reasonMessage := msg } }

/-- The error_event dict built by the `except Exception` branch of
run_workflow (keys: type, agent, event, message, statusCode, data). -/
def workflow_error_event (msg : String) : ChatEvent :=
  { eventType := "error", agent := none, event := "Error",
    message := some ("Workflow error: " ++ msg),
    statusCode := some 500,
    data := [("agent", "None"), ("error", msg)],
    errorBody := none }

/-- The converted events the producer put on the queue before its
termination point, in emission order. -/
def producedEvents (run : ProducerRun) : List ChatEvent :=
  run.events.filterMap convert_workflow_event

/-- The extra error event run_workflow enqueues for a faulting producer. -/
def fault_events : ProducerTermination → List ChatEvent
  | .normal => []
  | .serviceError msg => [service_error_event msg]
  | .fault msg => [workflow_error_event msg]

/-- Everything run_workflow puts on event_queue, in order: the converted
events up to the fault, the translated error event if the producer
raised, and finally the None completion sentinel written in the
`finally` block. -/
def run_workflow_queue (run : ProducerRun) : List (Option ChatEvent) :=
  (producedEvents run ++ fault_events run.termination).map some ++ [none]

/-- The consumer loop of process_request_stream, sequentially: yield each
dequeued event until the None sentinel is read, then stop. -/
def consume_queue : List (Option ChatEvent) → List ChatEvent
  | [] => []
  | none :: _ => []
  | some e :: rest => e :: consume_queue rest

/-- The internal event sequence yielded by
MagenticTravelOrchestrator.process_request_stream for an initialized
orchestrator whose consumer does not throw: the queue written by
run_workflow, drained in FIFO order up to the sentinel. -/
def process_request_stream (run : ProducerRun) : List ChatEvent :=
  consume_queue (run_workflow_queue run)

/-- An externally visible Server-Sent-Events record written by
chat.event_generator in main.py: either an internal event passed through
unchanged, or an error internal event wrapped into a ChatStreamState
record carrying a top-level error with message and statusCode. -/
inductive Envelope where
  | plain (e : ChatEvent)
  | wrappedError (inner : ChatEvent) (message : String) (statusCode : Nat)
deriving DecidableEq

/-- The START event yielded first by event_generator. -/
def start_envelope : Envelope :=
  .plain { eventType := "metadata", agent := none, event := "WorkflowStarted",
           message := none, statusCode := none,
           data := [("agent", "Orchestrator"), ("message", "Starting workflow")],
           errorBody := none }

/-- The END event yielded last by event_generator. -/
def end_envelope : Envelope :=
  .plain { eventType := "metadata", agent := some "TravelPlanningWorkflow",
           event := "Complete", message := none, statusCode := none,
           data := [("message", "Request processed successfully")],
           errorBody := none }

/-- The per-event wrapping step of event_generator: an internal event
whose "type" is "error" becomes a ChatStreamState record whose error
message and statusCode default to "An error occurred" and 500 when the
keys are absent; every other event passes through unchanged. -/
def wrap_internal_event (e : ChatEvent) : Envelope :=
  if e.eventType == "error" then
    .wrappedError e (e.message.getD "An error occurred") (e.statusCode.getD 500)
  else
    .plain e

/-- chat.event_generator in main.py, for a request whose orchestrator
stream does not itself raise: the START event, the wrapped internal
events in order, then unconditionally the END event. -/
def event_generator (run : ProducerRun) : List Envelope :=
  start_envelope :: (process_request_stream run).map wrap_internal_event
    ++ [end_envelope]

/-- A Complete envelope: a pass-through record whose event name is
"Complete" (only the END event of event_generator has this shape). -/
def Envelope.isComplete : Envelope → Bool
  | .plain e => e.event == "Complete"
  | .wrappedError _ _ _ => false

/-- An Error envelope: a wrapped error record, or a pass-through record
whose "type" is "error". -/
def Envelope.isError : Envelope → Bool
  | .plain e => e.eventType == "error"
  | .wrappedError _ _ _ => true

/-- A terminal envelope in the sense of the specification: Complete or
Error. -/
def Envelope.isTerminal (e : Envelope) : Bool :=
  e.isComplete || e.isError

/-!  The producer/consumer queue of the bridge as a step relation.  -/

/-- maxsize of the event_queue created in process_request_stream:
`asyncio.Queue()` uses the default maxsize 0, meaning the queue size is
infinite and `put` never blocks. -/
def event_queue_maxsize : Nat := 0

/-- State of the bridge: what the producer task still has to enqueue,
the FIFO queue contents, what the consumer has yielded so far, and
whether the consumer has read the None sentinel and stopped. -/
structure BridgeState where
  toProduce : List (Option ChatEvent)
  queue : List (Option ChatEvent)
  consumed : List ChatEvent
  halted : Bool
deriving DecidableEq

/-- Interleaved execution steps of the producer task and the consumer
loop.  `produce` appends the next pending item to the queue; because
event_queue_maxsize is 0 the step is enabled regardless of the queue
length.  `consume` pops a real event and yields it; `finish` pops the
None sentinel and stops the consumer. -/
inductive BridgeStep : BridgeState → BridgeState → Prop
  | produce (x : Option ChatEvent) (rest queue : List (Option ChatEvent))
      (consumed : List ChatEvent) (halted : Bool) :
      BridgeStep ⟨x :: rest, queue, consumed, halted⟩
        ⟨rest, queue ++ [x], consumed, halted⟩
  | consume (toProduce : List (Option ChatEvent)) (e : ChatEvent)
      (queue : List (Option ChatEvent)) (consumed : List ChatEvent) :
      BridgeStep ⟨toProduce, some e :: queue, consumed, false⟩
        ⟨toProduce, queue, consumed ++ [e], false⟩
  | finish (toProduce queue : List (Option ChatEvent)) (consumed : List ChatEvent) :
      BridgeStep ⟨toProduce, none :: queue, consumed, false⟩
        ⟨toProduce, queue, consumed, true⟩

/-- The bridge state at the start of one invocation: the producer has
the whole run_workflow queue trace to write, nothing queued or consumed. -/
def bridge_init (run : ProducerRun) : BridgeState :=
  ⟨run_workflow_queue run, [], [], false⟩

/-- Reachability in the bridge transition system. -/
def BridgeReach (run : ProducerRun) (s : BridgeState) : Prop :=
  Relation.ReflTransGen BridgeStep (bridge_init run) s

/-- The producer-only step function: enqueue the next pending item if
any (used to exhibit concrete reachable states). -/
def produce_step (s : BridgeState) : BridgeState :=
  match s.toProduce with
  | [] => s
  | x :: rest => ⟨rest, s.queue ++ [x], s.consumed, s.halted⟩

/-- Iterate the producer-only step n times. -/
def produceK : Nat → BridgeState → BridgeState
  | 0, s => s
  | n + 1, s => produceK n (produce_step s)

/-!  Consumer-side interrupt handling in process_request_stream.  -/

/-- Python exception classes that can arrive at the consumer loop of
process_request_stream while it is suspended at a yield: an exception
thrown in by the iterating caller, or the GeneratorExit raised when the
caller detaches and the async generator is closed. -/
inductive PyExcClass where
  | serviceResponseException
  | runtimeError
  | generatorExit
deriving DecidableEq

/-- Whether the class is a subclass of Exception.  GeneratorExit derives
from BaseException directly, not from Exception. -/
def is_Exception_subclass : PyExcClass → Bool
  | .serviceResponseException => true
  | .runtimeError => true
  | .generatorExit => false

/-- What the consumer loop does with an interrupt: whether
workflow_task.cancel() runs and whether the interrupt propagates. -/
structure InterruptOutcome where
  taskCancelled : Bool
  propagates : Bool
deriving DecidableEq

/-- The try/except around the streaming loop of process_request_stream
(the only place that cancels workflow_task): its sole clause is
`except Exception`, whose body cancels and awaits workflow_task and
re-raises; an interrupt that is not an Exception subclass bypasses the
clause and propagates with the task left running. -/
def streaming_loop_interrupt (e : PyExcClass) : InterruptOutcome :=
  if is_Exception_subclass e then
    { taskCancelled := true, propagates := true }
  else
    { taskCancelled := false, propagates := true }

/-!  Spec-side error taxonomy, for comparison with the source.  -/

/-- Modelled from the spec: the closed ErrorKind taxonomy of the
ErrorTranslator component (spec section 4.5).  No such taxonomy exists
in the source. -/
inductive ErrorKind where
  | ConnectionFailed
  | Timeout
  | MalformedResponse
  | UnknownServer
  | WorkflowFault
deriving DecidableEq

/-- Modelled from the spec: an ErrorRecord of the ErrorTranslator
component (kind plus preserved message). -/
structure ErrorRecord where
  kind : ErrorKind
  message : String
deriving DecidableEq

/-- The heterogeneous failure causes named by the spec mapping. -/
inductive FailureCause where
  | connectionRefused (msg : String)
  | timeoutExceeded (msg : String)
  | malformedResponse (msg : String)
  | unknownServer (serverId : String)
  | workflowFault (msg : String)
deriving DecidableEq

/-- Modelled from the spec: ErrorTranslator.translate, the closed
mapping of spec section 4.5; the source has no corresponding function. -/
def spec_error_translate : FailureCause → ErrorRecord
  | .connectionRefused msg => { kind := .ConnectionFailed, message := msg }
  | .timeoutExceeded msg => { kind := .Timeout, message := msg }
  | .malformedResponse msg => { kind := .MalformedResponse, message := msg }
  | .unknownServer serverId =>
      { kind := .UnknownServer, message := serverId }
  | .workflowFault msg => { kind := .WorkflowFault, message := msg }

/-!  Concrete inputs used by counterexamples and witnesses.  -/

/-- Concrete settings for evaluating the configuration. -/
def demoSettings : Settings :=
  { mcp_echo_ping_url := "http://localhost:5007",
    mcp_customer_query_url := "http://localhost:5001",
    mcp_itinerary_planning_url := "http://localhost:5002" }

/-- A concrete metadata entry (the customer-query server of
demoSettings). -/
def demoMeta : MetadataEntry :=
  { id := "customer-query", name := "Customer Query",
    url := "http://localhost:5001/mcp", schemeType := "http",
    selected := true, accessToken := none }

/-- A probe environment in which only the echo-ping probe has finished
when the 10 s overall deadline elapses; the two others are cancelled by
wait_for at the deadline. -/
def demoPendingEnv : String → ProbeStatus := fun serverId =>
  if serverId == "echo-ping" then .done (.connected (.ok [])) else .pending

/-- A probe environment in which every probe finishes in time. -/
def demoDoneEnv : String → ProbeStatus := fun serverId =>
  if serverId == "echo-ping" then .done (.connectFail "connection refused")
  else .done (.connected (.ok [{ name := "plan_trip", description := "plans" }]))

/-- A probe environment in which every probe also finishes in time but
the echo-ping outcome differs from demoDoneEnv. -/
def demoDoneEnv2 : String → ProbeStatus := fun serverId =>
  if serverId == "echo-ping" then .done (.connected (.ok []))
  else .done (.connected (.ok [{ name := "plan_trip", description := "plans" }]))

/-- The entry list returned by a discovery call under demoDoneEnv. -/
def demoEntries1 : List ServerInfo :=
  (registry_init demoSettings).map
    (fun m => check_server_and_list_tools m (demoDoneEnv m.id).doneOutcome)

/-- The entry list returned by a discovery call under demoDoneEnv2. -/
def demoEntries2 : List ServerInfo :=
  (registry_init demoSettings).map
    (fun m => check_server_and_list_tools m (demoDoneEnv2 m.id).doneOutcome)

/-- The customer-query entry produced under demoDoneEnv. -/
def demoCQInfo : ServerInfo :=
  { id := "customer-query", name := "Customer Query",
    url := "http://localhost:5001/mcp", schemeType := "http",
    reachable := true, selected := true,
    tools := [{ name := "plan_trip", description := "plans" }],
    error := none }

/-- A producer run that emits one delta event and then raises a generic
exception. -/
def demoFaultRun : ProducerRun :=
  { events := [.agentDelta (some "CustomerQueryAgent") "Hi"],
    termination := .fault "boom" }

/-- The converted delta event of demoFaultRun. -/
def demoDeltaEvent : ChatEvent :=
  { eventType := "metadata", agent := some "CustomerQueryAgent",
    event := "AgentDelta", message := none, statusCode := none,
    data := [("agent", "CustomerQueryAgent"), ("delta", "Hi")],
    errorBody := none }

/-- A producer run that completes normally after one final-result event. -/
def demoNormalRun : ProducerRun :=
  { events := [.finalResult (some "done")], termination := .normal }

/-- The converted final-result event of demoNormalRun. -/
def demoFinalEvent : ChatEvent :=
  { eventType := "metadata", agent := none, event := "FinalResult",
    message := none, statusCode := none,
    data := [("agent", "None"), ("message", "done"), ("completed", "True")],
    errorBody := none }

/-- A producer run emitting 101 delta events before completing. -/
def demoLongRun : ProducerRun :=
  { events := List.replicate 101 (.agentDelta (some "A") "x"),
    termination := .normal }

/-- A fetch environment where only customer-query loads its tools. -/
def demoFetch : String → ToolFetchOutcome := fun i =>
  if i == "customer-query" then .ok ["query_tool"] else .failed "unreachable"

/-!  Supporting lemmas.  -/

/-- The identity and selected flag of a probe result come from the
metadata entry alone, whatever the outcome. -/
theorem check_server_fields (m : MetadataEntry) (o : ConnectOutcome) :
    (check_server_and_list_tools m o).id = m.id ∧
      (check_server_and_list_tools m o).selected = m.selected := by
  cases o with
  | noTool => exact ⟨rfl, rfl⟩
  | connectFail msg => exact ⟨rfl, rfl⟩
  | connected listing => cases listing <;> exact ⟨rfl, rfl⟩

/-- Whenever some probe is still outstanding at the deadline, the
recovery loop reaches the first done-cancelled task and its result()
raises past the local except clause: the call aborts for every
accumulator value. -/
theorem recover_results_cancelled (env : String → ProbeStatus) :
    ∀ (st : List MetadataEntry) (acc : List ServerInfo),
      (st.all fun m => (env m.id).isDone) = false →
      recover_results env st acc = ListToolsResult.cancelledError := by
  intro st
  induction st with
  | nil =>
    intro acc h
    simp at h
  | cons m rest ih =>
    intro acc h
    simp only [List.all_cons] at h
    cases henv : env m.id with
    | done o =>
      rw [henv] at h
      simp only [ProbeStatus.isDone, Bool.true_and] at h
      have hstep : recover_results env (m :: rest) acc
          = recover_results env rest
              (acc ++ [check_server_and_list_tools m o]) := by
        simp only [recover_results, henv]
      rw [hstep]
      exact ih _ h
    | pending =>
      simp only [recover_results, henv]

/-- A discovery call returns an entry list only when every probe
finished before the deadline, and then the list is the per-server check
result in registry order. -/
theorem list_tools_ok_elim (st : List MetadataEntry)
    (env : String → ProbeStatus) (entries : List ServerInfo)
    (h : list_tools st env = ListToolsResult.ok entries) :
    (st.all fun m => (env m.id).isDone) = true
    ∧ entries = st.map
        (fun m => check_server_and_list_tools m (env m.id).doneOutcome) := by
  unfold list_tools at h
  split at h
  · rename_i hall
    exact ⟨hall, (ListToolsResult.ok.inj h).symm⟩
  · rename_i hnall
    have hfalse : (st.all fun m => (env m.id).isDone) = false := by
      cases hb : (st.all fun m => (env m.id).isDone) with
      | false => rfl
      | true => exact absurd hb hnall
    rw [recover_results_cancelled env st [] hfalse] at h
    exact ListToolsResult.noConfusion h

/-- applyOps either leaves the registry state unchanged or clears it. -/
theorem applyOps_eq_or_nil (st : List MetadataEntry) :
    ∀ ops : List RegistryOp, applyOps st ops = st ∨ applyOps st ops = [] := by
  intro ops
  induction ops generalizing st with
  | nil => exact Or.inl rfl
  | cons op ops ih =>
    cases op with
    | closeAll =>
       simp only [applyOps, applyOp]
       rcases ih ([] : List MetadataEntry) with h | h <;> exact Or.inr h
    | createTool serverId => exact ih st
    | getMetadata serverId => exact ih st
    | listToolsOp => exact ih st

/-- Every metadata entry ever reachable in the registry has its selected
flag equal to (id != "echo-ping"): the flag is written once by
_initialize_metadata and no operation rewrites it. -/
theorem metadata_selected_invariant (s : Settings) (ops : List RegistryOp)
    (m : MetadataEntry) (hm : m ∈ applyOps (registry_init s) ops) :
    m.selected = (m.id != "echo-ping") := by
  rcases applyOps_eq_or_nil (registry_init s) ops with h | h
  · rw [h] at hm
    simp only [registry_init, initialize_metadata, get_mcp_tools_config,
      List.mem_map] at hm
    obtain ⟨p, hp, rfl⟩ := hm
    simp only [List.mem_cons, List.mem_singleton] at hp
    rcases hp with rfl | rfl | rfl | h
    · rfl
    · rfl
    · rfl
    · simp at h
  · rw [h] at hm
    simp at hm

/-- Splitting two decompositions of a list around its first `none`. -/
theorem append_none_injective {α : Type} :
    ∀ (a b : List (Option α)) (c d : List (Option α)),
      (∀ x ∈ a, x ≠ none) → (∀ x ∈ b, x ≠ none) →
      a ++ none :: c = b ++ none :: d → a = b ∧ c = d := by
  intro a
  induction a with
  | nil =>
    intro b c d _ hb h
    cases b with
    | nil => simpa using h
    | cons y ys =>
      simp only [List.nil_append, List.cons_append, List.cons.injEq] at h
      exact absurd h.1.symm (hb y (List.mem_cons_self y ys))
  | cons x xs ih =>
    intro b c d ha hb h
    cases b with
    | nil =>
      simp only [List.cons_append, List.nil_append, List.cons.injEq] at h
      exact absurd h.1 (ha x (List.mem_cons_self x xs))
    | cons y ys =>
      simp only [List.cons_append, List.cons.injEq] at h
      obtain ⟨rfl, htail⟩ := h
      have := ih ys c d (fun z hz => ha z (List.mem_cons_of_mem x hz))
        (fun z hz => hb z (List.mem_cons_of_mem _ hz)) htail
      exact ⟨by rw [this.1], this.2⟩

/-- The bridge invariant: the events already consumed, the sentinel if
already read, the queue contents and the items still to be produced
always concatenate to the full producer trace. -/
def bridgeInv (trace : List (Option ChatEvent)) (s : BridgeState) : Prop :=
  s.consumed.map some ++ (if s.halted then [none] else [])
    ++ s.queue ++ s.toProduce = trace

/-- Each bridge step preserves the invariant. -/
theorem bridgeInv_step (trace : List (Option ChatEvent)) (s t : BridgeState)
    (hstep : BridgeStep s t) (hinv : bridgeInv trace s) : bridgeInv trace t := by
  cases hstep with
  | produce x rest queue consumed halted =>
    unfold bridgeInv at *
    simp only at hinv ⊢
    rw [← hinv]
    simp
  | consume toProduce e queue consumed =>
    unfold bridgeInv at *
    simp only [if_neg Bool.false_ne_true] at hinv ⊢
    rw [← hinv]
    simp
  | finish toProduce queue consumed =>
    unfold bridgeInv at *
    simp only [if_neg Bool.false_ne_true, if_pos rfl] at hinv ⊢
    rw [← hinv]
    simp

/-- The invariant holds in every reachable bridge state. -/
theorem bridgeInv_reach (run : ProducerRun) (s : BridgeState)
    (h : BridgeReach run s) : bridgeInv (run_workflow_queue run) s := by
  induction h with
  | refl =>
    unfold bridgeInv bridge_init
    simp
  | tail _ hstep ih => exact bridgeInv_step _ _ _ hstep ih

/-- Draining a some-mapped list up to its final sentinel returns the
original list. -/
theorem consume_queue_map_some (l : List ChatEvent) :
    consume_queue (l.map some ++ [none]) = l := by
  induction l with
  | nil => rfl
  | cons e rest ih =>
    simp only [List.map_cons, List.cons_append, consume_queue, List.append_eq, ih]

/-- Every event produced by _convert_workflow_event has type "metadata"
and an event name different from "Complete". -/
theorem convert_workflow_event_shape (ev : MafEvent) (ce : ChatEvent)
    (h : convert_workflow_event ev = some ce) :
    ce.eventType = "metadata" ∧ (ce.event == "Complete") = false := by
  cases ev with
  | orchestratorMessage kind text =>
    simp only [convert_workflow_event, Option.some.injEq] at h
    subst h
    refine ⟨rfl, ?_⟩
    simp only [beq_eq_false_iff_ne, ne_eq]
    intro hc
    have hlen : ("Orchestrator" ++ dropUnderscores (pyTitle kind)).length
        = ("Complete" : String).length := by rw [hc]
    rw [String.length_append] at hlen
    have h1 : ("Orchestrator" : String).length = 12 := rfl
    have h2 : ("Complete" : String).length = 8 := rfl
    omega
  | agentDelta agentId text =>
    simp only [convert_workflow_event, Option.some.injEq] at h
    subst h
    exact ⟨rfl, rfl⟩
  | agentMessage agentId text role =>
    simp only [convert_workflow_event, Option.some.injEq] at h
    subst h
    exact ⟨rfl, rfl⟩
  | finalResult text =>
    simp only [convert_workflow_event, Option.some.injEq] at h
    subst h
    exact ⟨rfl, rfl⟩
  | workflowOutput data =>
    simp only [convert_workflow_event, Option.some.injEq] at h
    subst h
    exact ⟨rfl, rfl⟩
  | otherEvent => simp [convert_workflow_event] at h

/-- Internal events reaching the wrapper from the producer path are
metadata events and pass through unwrapped. -/
theorem wrap_produced (run : ProducerRun) :
    (producedEvents run).map wrap_internal_event
      = (producedEvents run).map Envelope.plain := by
  apply List.map_congr_left
  intro e he
  simp only [producedEvents, List.mem_filterMap] at he
  obtain ⟨ev, _, hev⟩ := he
  have := (convert_workflow_event_shape ev e hev).1
  simp [wrap_internal_event, this]

/-- The shape of event_generator output: START, the converted events
unwrapped, the wrapped fault event if the producer raised, then END. -/
theorem event_generator_shape (run : ProducerRun) :
    event_generator run
      = start_envelope :: (producedEvents run).map Envelope.plain
          ++ (fault_events run.termination).map wrap_internal_event
          ++ [end_envelope] := by
  unfold event_generator process_request_stream
  rw [run_workflow_queue, consume_queue_map_some, List.map_append, wrap_produced]
  simp

/-- List.filter over a cons whose head passes, predicate explicit
(avoids higher-order unification ambiguity). -/
theorem filter_cons_eq_pos {a : Type} (p : a → Bool) (x : a) (l : List a)
    (h : p x = true) : (x :: l).filter p = x :: l.filter p :=
  List.filter_cons_of_pos h

/-- List.filter over a cons whose head fails, predicate explicit. -/
theorem filter_cons_eq_neg {a : Type} (p : a → Bool) (x : a) (l : List a)
    (h : p x = false) : (x :: l).filter p = l.filter p :=
  List.filter_cons_of_neg (by simp [h])

/-- Within returned entry lists, changing the probe outcomes of other
servers never changes the entries carrying a given server id. -/
theorem map_check_isolation (idv : String)
    (env1 env2 : String → ProbeStatus) (hagree : env1 idv = env2 idv) :
    ∀ st : List MetadataEntry,
      ((st.map (fun m =>
          check_server_and_list_tools m (env1 m.id).doneOutcome)).filter
          (fun e => e.id == idv))
        = ((st.map (fun m =>
            check_server_and_list_tools m (env2 m.id).doneOutcome)).filter
            (fun e => e.id == idv)) := by
  intro st
  induction st with
  | nil => rfl
  | cons m rest ih =>
    rw [List.map_cons, List.map_cons]
    by_cases hid : m.id = idv
    · have hsame : (env1 m.id).doneOutcome = (env2 m.id).doneOutcome := by
        rw [hid, hagree]
      rw [hsame]
      cases hc : ((check_server_and_list_tools m
          (env2 m.id).doneOutcome).id == idv) with
      | true =>
        rw [filter_cons_eq_pos (fun e : ServerInfo => e.id == idv)
              (check_server_and_list_tools m (env2 m.id).doneOutcome) _ hc,
            filter_cons_eq_pos (fun e : ServerInfo => e.id == idv)
              (check_server_and_list_tools m (env2 m.id).doneOutcome) _ hc,
            ih]
      | false =>
        rw [filter_cons_eq_neg (fun e : ServerInfo => e.id == idv)
              (check_server_and_list_tools m (env2 m.id).doneOutcome) _ hc,
            filter_cons_eq_neg (fun e : ServerInfo => e.id == idv)
              (check_server_and_list_tools m (env2 m.id).doneOutcome) _ hc,
            ih]
    · have h1 : ((check_server_and_list_tools m
          (env1 m.id).doneOutcome).id == idv) = false := by
        rw [(check_server_fields m _).1]
        simp only [beq_eq_false_iff_ne, ne_eq]
        exact hid
      have h2 : ((check_server_and_list_tools m
          (env2 m.id).doneOutcome).id == idv) = false := by
        rw [(check_server_fields m _).1]
        simp only [beq_eq_false_iff_ne, ne_eq]
        exact hid
      rw [filter_cons_eq_neg (fun e : ServerInfo => e.id == idv)
            (check_server_and_list_tools m (env1 m.id).doneOutcome) _ h1,
          filter_cons_eq_neg (fun e : ServerInfo => e.id == idv)
            (check_server_and_list_tools m (env2 m.id).doneOutcome) _ h2,
          ih]

/-- n producer-only steps are reachable and grow the queue by n
(the unbounded put never blocks). -/
theorem produceK_reach :
    ∀ (n : Nat) (s : BridgeState), n ≤ s.toProduce.length →
      Relation.ReflTransGen BridgeStep s (produceK n s)
      ∧ (produceK n s).queue.length = s.queue.length + n := by
  intro n
  induction n with
  | zero => intro s _; exact ⟨Relation.ReflTransGen.refl, by simp [produceK]⟩
  | succ k ih =>
    intro s hn
    obtain ⟨tp, q, c, hl⟩ := s
    cases tp with
    | nil => simp at hn
    | cons x rest =>
      have hstep : BridgeStep ⟨x :: rest, q, c, hl⟩ ⟨rest, q ++ [x], c, hl⟩ :=
        BridgeStep.produce x rest q c hl
      have hrest : k ≤ (BridgeState.mk rest (q ++ [x]) c hl).toProduce.length := by
        simp only [List.length_cons] at hn
        simpa using Nat.le_of_succ_le_succ hn
      obtain ⟨hr, hlen⟩ := ih ⟨rest, q ++ [x], c, hl⟩ hrest
      refine ⟨?_, ?_⟩
      · exact Relation.ReflTransGen.head hstep (by simpa [produceK, produce_step] using hr)
      · have : produceK (k + 1) ⟨x :: rest, q, c, hl⟩
            = produceK k ⟨rest, q ++ [x], c, hl⟩ := by
          simp [produceK, produce_step]
        rw [this, hlen]
        simp only [List.length_append, List.length_singleton]
        omega

/-- The all_tools accumulator of the initialize loop: the catalog of each
successfully fetched configured server, in enabled order. -/
theorem init_tools_loop_all_tools (cfgIds : List String)
    (fetch : String → ToolFetchOutcome) :
    ∀ (enabled : List String) (st : InitToolsState),
      (init_tools_loop cfgIds fetch enabled st).all_tools
        = st.all_tools
          ++ (enabled.filter
                (fun i => cfgIds.contains i && (fetch i).isOk)).flatMap
              (fun i => (fetch i).toolsOr) := by
  intro enabled
  induction enabled with
  | nil => intro st; simp [init_tools_loop]
  | cons tid rest ih =>
    intro st
    rw [init_tools_loop]
    by_cases hc : cfgIds.contains tid
    · rw [if_pos hc]
      cases hf : fetch tid with
      | ok ts =>
        have hcond : (fun i => cfgIds.contains i && (fetch i).isOk) tid = true := by
          show (cfgIds.contains tid && (fetch tid).isOk) = true
          rw [hf, hc]
          rfl
        rw [filter_cons_eq_pos (fun i => cfgIds.contains i && (fetch i).isOk)
              tid rest hcond, List.flatMap_cons]
        show (init_tools_loop cfgIds fetch rest
            { tools_by_server := st.tools_by_server ++ [(tid, ts)],
              all_tools := st.all_tools ++ ts }).all_tools = _
        rw [ih, hf]
        simp [ToolFetchOutcome.toolsOr, List.append_assoc]
      | failed msg =>
        have hcond : (fun i => cfgIds.contains i && (fetch i).isOk) tid = false := by
          show (cfgIds.contains tid && (fetch tid).isOk) = false
          rw [hf, hc]
          rfl
        rw [filter_cons_eq_neg (fun i => cfgIds.contains i && (fetch i).isOk)
              tid rest hcond]
        show (init_tools_loop cfgIds fetch rest st).all_tools = _
        rw [ih]
    · rw [if_neg hc]
      have hcond : (fun i => cfgIds.contains i && (fetch i).isOk) tid = false := by
        show (cfgIds.contains tid && (fetch tid).isOk) = false
        rw [Bool.eq_false_iff.mpr hc]
        rfl
      rw [filter_cons_eq_neg (fun i => cfgIds.contains i && (fetch i).isOk)
            tid rest hcond, ih]

/-!  Claim theorems: fan-out discovery half.  -/

/-- Claim C1 counterexample: for the configured three-server registry
with two probes still outstanding when the overall deadline elapses,
list_tools returns no mapping at all: wait_for has cancelled and
awaited the stragglers, the recovery loop calls result() on the first
done-cancelled task, and the raised CancelledError escapes
except Exception, aborting the call - so no server is represented by an
entry, with reachable=false or otherwise. -/
theorem discovery_aborts_at_deadline_cex :
    list_tools (registry_init demoSettings) demoPendingEnv
      = ListToolsResult.cancelledError
    ∧ (registry_init demoSettings).map (fun m => m.id)
        = ["echo-ping", "customer-query", "itinerary-planning"] := by decide

/-- Claim C1 (amended): when every probe finishes before the overall
deadline, the discovery call returns exactly one entry per configured
server, in registry order; when the deadline elapses with any probe
still outstanding, the call returns no mapping and aborts with the
CancelledError escaping its recovery loop; every entry list that is
actually returned has exactly one entry per configured server id. -/
theorem discovery_entries_or_abort (st : List MetadataEntry)
    (env : String → ProbeStatus) :
    ((st.all fun m => (env m.id).isDone) = true →
      list_tools st env = ListToolsResult.ok
        (st.map (fun m => check_server_and_list_tools m (env m.id).doneOutcome)))
    ∧ ((st.all fun m => (env m.id).isDone) = false →
      list_tools st env = ListToolsResult.cancelledError)
    ∧ (∀ entries, list_tools st env = ListToolsResult.ok entries →
        entries.map (fun e => e.id) = st.map (fun m => m.id)) := by
  refine ⟨?_, ?_, ?_⟩
  · intro hall
    unfold list_tools
    rw [if_pos hall]
  · intro hnall
    unfold list_tools
    split
    · rename_i hall
      rw [hnall] at hall
      exact absurd hall Bool.false_ne_true
    · exact recover_results_cancelled env st [] hnall
  · intro entries hok
    obtain ⟨hall, hent⟩ := list_tools_ok_elim st env entries hok
    rw [hent, List.map_map]
    apply List.map_congr_left
    intro m hm
    show (check_server_and_list_tools m (env m.id).doneOutcome).id = m.id
    exact (check_server_fields m _).1

/-- Witness for the amended C1 theorem: with every probe of the
configured registry finished, the call returns the full per-server
entry list. -/
theorem discovery_entries_or_abort_witness :
    ((registry_init demoSettings).all
        fun m => (demoDoneEnv m.id).isDone) = true
    ∧ list_tools (registry_init demoSettings) demoDoneEnv
        = ListToolsResult.ok demoEntries1 :=
  ⟨by decide,
    (discovery_entries_or_abort (registry_init demoSettings)
      demoDoneEnv).1 (by decide)⟩

/-- Claim C3 counterexample: a failure raised after the MCP connection
was entered (for example a malformed tool listing) is caught and folded
into the entry with the error message set, but the entry keeps
reachable=true, not reachable=false as the claim states. -/
theorem probe_reachable_after_connect_cex :
    (check_server_and_list_tools demoMeta
        (.connected (.listFail "malformed tool payload"))).reachable = true
    ∧ (check_server_and_list_tools demoMeta
        (.connected (.listFail "malformed tool payload"))).error
        = some "malformed tool payload" := by decide

/-- Claim C3 (amended): every failure raised inside one probe is caught
and folded into that server entry (the probe is a total function): a
failure before the connection is entered yields reachable=false with
the error set, and a failure after the connection is entered yields
reachable=true with the error set.  Within returned results, the
entries carrying one server id are unchanged under arbitrary changes to
the other servers probe outcomes; but a probe still outstanding at the
overall deadline aborts the whole discovery call with CancelledError,
so isolation holds only among probes that complete. -/
theorem probe_failures_recovered (m : MetadataEntry) (msg : String)
    (st : List MetadataEntry) (env1 env2 : String → ProbeStatus)
    (idv : String) (hagree : env1 idv = env2 idv) :
    ((check_server_and_list_tools m (.connectFail msg)).error = some msg
      ∧ (check_server_and_list_tools m (.connectFail msg)).reachable = false)
    ∧ ((check_server_and_list_tools m
          (.connected (.listFail msg))).error = some msg
      ∧ (check_server_and_list_tools m
          (.connected (.listFail msg))).reachable = true)
    ∧ (∀ entries1 entries2,
        list_tools st env1 = ListToolsResult.ok entries1 →
        list_tools st env2 = ListToolsResult.ok entries2 →
        entries1.filter (fun e => e.id == idv)
          = entries2.filter (fun e => e.id == idv))
    ∧ ((st.all fun mm => (env1 mm.id).isDone) = false →
        list_tools st env1 = ListToolsResult.cancelledError) := by
  refine ⟨⟨rfl, rfl⟩, ⟨rfl, rfl⟩, ?_, ?_⟩
  · intro entries1 entries2 h1 h2
    obtain ⟨hall1, hent1⟩ := list_tools_ok_elim st env1 entries1 h1
    obtain ⟨hall2, hent2⟩ := list_tools_ok_elim st env2 entries2 h2
    rw [hent1, hent2]
    exact map_check_isolation idv env1 env2 hagree st
  · intro hnall
    unfold list_tools
    split
    · rename_i hall
      rw [hnall] at hall
      exact absurd hall Bool.false_ne_true
    · exact recover_results_cancelled env1 st [] hnall

/-- Witness for the amended C3 theorem: two all-finished environments
that agree on the customer-query probe but differ on echo-ping return
results whose customer-query entries coincide. -/
theorem probe_failures_recovered_witness :
    demoDoneEnv "customer-query" = demoDoneEnv2 "customer-query"
    ∧ list_tools (registry_init demoSettings) demoDoneEnv
        = ListToolsResult.ok demoEntries1
    ∧ list_tools (registry_init demoSettings) demoDoneEnv2
        = ListToolsResult.ok demoEntries2
    ∧ demoEntries1.filter (fun e => e.id == "customer-query")
        = demoEntries2.filter (fun e => e.id == "customer-query") :=
  ⟨by decide, by decide, by decide,
    (probe_failures_recovered demoMeta "x" (registry_init demoSettings)
        demoDoneEnv demoDoneEnv2 "customer-query" (by decide)).2.2.1
      demoEntries1 demoEntries2 (by decide) (by decide)⟩

/-- Claim C5 counterexample: for an unknown server id the discovery half
records no error at all (the base entry is returned with the error key
never assigned), while the spec mapping requires an UnknownServer
record; the source stores probe failures as bare strings, not values of
a closed kind taxonomy. -/
theorem error_taxonomy_cex :
    (check_server_and_list_tools demoMeta ConnectOutcome.noTool).error = none
    ∧ (check_server_and_list_tools demoMeta ConnectOutcome.noTool).reachable
        = false
    ∧ (spec_error_translate
        (FailureCause.unknownServer "customer-query")).kind
        = ErrorKind.UnknownServer := by decide

/-- Claim C5 (amended): the discovery half folds a caught exception into
the per-server entry as the bare message string and records nothing for
an unknown server id; the streaming half distinguishes only
ServiceResponseException (event "ServiceError", nested status 504) from
every other exception (event "Error", status 500, message prefixed
"Workflow error: "); there is no shared closed ErrorKind mapping. -/
theorem error_channel_shapes (m : MetadataEntry) (msg : String) :
    (check_server_and_list_tools m (.connectFail msg)).error = some msg
    ∧ (check_server_and_list_tools m ConnectOutcome.noTool).error = none
    ∧ (workflow_error_event msg).event = "Error"
    ∧ (workflow_error_event msg).statusCode = some 500
    ∧ (workflow_error_event msg).message
        = some ("Workflow error: " ++ msg)
    ∧ (service_error_event msg).event = "ServiceError"
    ∧ (service_error_event msg).statusCode = none
    ∧ (service_error_event msg).errorBody
        = some (ErrorBody.mk
            "Request timed out or service unavailable. Please try again."
            504 msg) :=
  ⟨rfl, rfl, rfl, rfl, rfl, rfl, rfl, rfl⟩

/-- Claim C6 counterexample: the per-call timeout passed to each MCP
tool (30 s) is not less than or equal to the overall discovery deadline
(10 s). -/
theorem per_call_timeout_cex :
    ¬ (create_mcp_tool_request_timeout ≤ list_tools_overall_timeout) := by
  decide

/-- Claim C6 (amended): the per-call request timeout is 30 seconds and
the overall discovery deadline is 10 seconds, so the overall deadline is
strictly smaller than the per-call timeout. -/
theorem timeout_constants :
    create_mcp_tool_request_timeout = 30
    ∧ list_tools_overall_timeout = 10
    ∧ list_tools_overall_timeout < create_mcp_tool_request_timeout := by
  decide

/-- Claim C10: every entry of every entry list a discovery call ever
returns, over any sequence of registry operations, carries
selected = (id != "echo-ping"), the value fixed by _initialize_metadata
at construction and never rewritten. -/
theorem discovery_selected_flag (s : Settings) (ops : List RegistryOp)
    (env : String → ProbeStatus) (entries : List ServerInfo) (e : ServerInfo)
    (hres : list_tools (applyOps (registry_init s) ops) env
        = ListToolsResult.ok entries)
    (he : e ∈ entries) :
    e.selected = (e.id != "echo-ping") := by
  obtain ⟨hall, hent⟩ := list_tools_ok_elim _ env entries hres
  rw [hent, List.mem_map] at he
  obtain ⟨m, hm, rfl⟩ := he
  rw [(check_server_fields m _).2, (check_server_fields m _).1]
  exact metadata_selected_invariant s ops m hm

/-- Witness for C10: the customer-query entry of a concrete discovery
result is selected, and its flag equals (id != "echo-ping"). -/
theorem discovery_selected_flag_witness :
    list_tools (applyOps (registry_init demoSettings) []) demoDoneEnv
        = ListToolsResult.ok demoEntries1
    ∧ demoCQInfo ∈ demoEntries1
    ∧ demoCQInfo.selected = (demoCQInfo.id != "echo-ping") :=
  ⟨by decide, by decide,
    discovery_selected_flag demoSettings [] demoDoneEnv demoEntries1
      demoCQInfo (by decide) (by decide)⟩

/-!  Claim theorems: event-streaming bridge half.  -/

/-- Mapping some over a list is injective. -/
theorem map_some_inj {a : Type} :
    ∀ l1 l2 : List a, l1.map some = l2.map some → l1 = l2 := by
  intro l1
  induction l1 with
  | nil =>
    intro l2 h
    cases l2 with
    | nil => rfl
    | cons y ys => simp at h
  | cons x xs ih =>
    intro l2 h
    cases l2 with
    | nil => simp at h
    | cons y ys =>
      simp only [List.map_cons, List.cons.injEq, Option.some.injEq] at h
      rw [h.1, ih ys h.2]

/-- Claim C2 counterexample: for a producer that emits one delta event
and then raises, the generated stream is START, the delta, one Error
envelope, and then still a Complete envelope: the stream contains a
Complete envelope after the Error envelope, and two terminal envelopes
in total. -/
theorem chat_stream_terminal_cex :
    event_generator demoFaultRun
      = [start_envelope, Envelope.plain demoDeltaEvent,
         Envelope.wrappedError (workflow_error_event "boom")
           "Workflow error: boom" 500,
         end_envelope]
    ∧ Envelope.isError (Envelope.wrappedError (workflow_error_event "boom")
        "Workflow error: boom" 500) = true
    ∧ Envelope.isComplete end_envelope = true
    ∧ ((event_generator demoFaultRun).filter Envelope.isTerminal).length
        = 2 := by decide

/-- Claim C2 (amended): every generated stream is START, the converted
producer events in order, at most one Error envelope (exactly one when
the producer raised), and then always exactly one Complete envelope,
which is the final envelope of the stream. -/
theorem chat_stream_single_complete (run : ProducerRun) :
    (event_generator run
      = start_envelope :: (producedEvents run).map Envelope.plain
          ++ (fault_events run.termination).map wrap_internal_event
          ++ [end_envelope])
    ∧ ((event_generator run).filter Envelope.isComplete = [end_envelope])
    ∧ (((event_generator run).filter Envelope.isError).length
        = match run.termination with
          | .normal => 0
          | .serviceError _ => 1
          | .fault _ => 1) := by
  obtain ⟨events, term⟩ := run
  have hplc : ((producedEvents ⟨events, term⟩).map Envelope.plain).filter
      Envelope.isComplete = [] := by
    rw [List.filter_eq_nil_iff]
    intro a ha
    rw [List.mem_map] at ha
    obtain ⟨ce, hce, rfl⟩ := ha
    rw [producedEvents, List.mem_filterMap] at hce
    obtain ⟨ev, _, hconv⟩ := hce
    have hne := (convert_workflow_event_shape ev ce hconv).2
    simp [Envelope.isComplete, hne]
  have hple : ((producedEvents ⟨events, term⟩).map Envelope.plain).filter
      Envelope.isError = [] := by
    rw [List.filter_eq_nil_iff]
    intro a ha
    rw [List.mem_map] at ha
    obtain ⟨ce, hce, rfl⟩ := ha
    rw [producedEvents, List.mem_filterMap] at hce
    obtain ⟨ev, _, hconv⟩ := hce
    have hmd := (convert_workflow_event_shape ev ce hconv).1
    simp [Envelope.isError, hmd]
  refine ⟨event_generator_shape _, ?_, ?_⟩
  · rw [event_generator_shape, List.filter_append, List.filter_append,
      filter_cons_eq_neg Envelope.isComplete start_envelope _ rfl, hplc]
    cases term with
    | normal => rfl
    | serviceError msg => rfl
    | fault msg => rfl
  · rw [event_generator_shape, List.filter_append, List.filter_append,
      filter_cons_eq_neg Envelope.isError start_envelope _ rfl, hple]
    cases term with
    | normal => rfl
    | serviceError msg => rfl
    | fault msg => rfl

/-- Claim C4: in every complete bridge execution (producer finished,
consumer read the sentinel), the consumed sequence is exactly the
enqueued event sequence, in emission order, with nothing left queued:
the bridge neither reorders, duplicates, nor drops events, so the
terminal event is observed exactly once, last. -/
theorem bridge_fifo (run : ProducerRun) (s : BridgeState)
    (hreach : BridgeReach run s) (hhalt : s.halted = true)
    (hdone : s.toProduce = []) :
    s.consumed = producedEvents run ++ fault_events run.termination
    ∧ s.queue = [] := by
  have hinv := bridgeInv_reach run s hreach
  unfold bridgeInv at hinv
  rw [hhalt, hdone, if_pos rfl, run_workflow_queue, List.append_nil] at hinv
  have hinv2 : s.consumed.map some ++ (none :: s.queue)
      = (producedEvents run ++ fault_events run.termination).map some
        ++ (none :: ([] : List (Option ChatEvent))) := by
    rw [← List.singleton_append, ← List.append_assoc]
    simpa using hinv
  have h := append_none_injective (s.consumed.map some)
    ((producedEvents run ++ fault_events run.termination).map some)
    s.queue []
    (by
      intro x hx
      rw [List.mem_map] at hx
      obtain ⟨y, _, rfl⟩ := hx
      simp)
    (by
      intro x hx
      rw [List.mem_map] at hx
      obtain ⟨y, _, rfl⟩ := hx
      simp)
    hinv2
  exact ⟨map_some_inj _ _ h.1, h.2⟩

/-- Witness for C4: a concrete four-step execution of the bridge for a
one-event producer ends with exactly that event consumed and the queue
empty. -/
theorem bridge_fifo_witness :
    (BridgeState.mk [] [] [demoFinalEvent] true).consumed
      = producedEvents demoNormalRun ++ fault_events demoNormalRun.termination
    ∧ (BridgeState.mk [] [] [demoFinalEvent] true).queue = [] := by
  have hr : BridgeReach demoNormalRun ⟨[], [], [demoFinalEvent], true⟩ := by
    show Relation.ReflTransGen BridgeStep (bridge_init demoNormalRun)
        ⟨[], [], [demoFinalEvent], true⟩
    have h0 : bridge_init demoNormalRun
        = ⟨[some demoFinalEvent, none], [], [], false⟩ := by decide
    rw [h0]
    refine Relation.ReflTransGen.head
      (BridgeStep.produce (some demoFinalEvent) [none] [] [] false) ?_
    show Relation.ReflTransGen BridgeStep
        ⟨[none], [some demoFinalEvent], [], false⟩ _
    refine Relation.ReflTransGen.head
      (BridgeStep.produce none [] [some demoFinalEvent] [] false) ?_
    show Relation.ReflTransGen BridgeStep
        ⟨[], [some demoFinalEvent, none], [], false⟩ _
    refine Relation.ReflTransGen.head
      (BridgeStep.consume [] demoFinalEvent [none] []) ?_
    show Relation.ReflTransGen BridgeStep
        ⟨[], [none], [demoFinalEvent], false⟩ _
    refine Relation.ReflTransGen.head
      (BridgeStep.finish [] [] [demoFinalEvent]) ?_
    exact Relation.ReflTransGen.refl
  exact bridge_fifo demoNormalRun ⟨[], [], [demoFinalEvent], true⟩ hr rfl rfl

/-- Claim C8 counterexample: the event queue is created with
asyncio.Queue() and the default maxsize 0 (no bound), and for a 101
event producer the producer-only schedule reaches a state whose queue
holds 101 entries, exceeding any capacity of tens of entries. -/
theorem queue_unbounded_cex :
    event_queue_maxsize = 0
    ∧ BridgeReach demoLongRun (produceK 101 (bridge_init demoLongRun))
    ∧ (produceK 101 (bridge_init demoLongRun)).queue.length = 101 := by
  have hlen : (bridge_init demoLongRun).toProduce.length = 102 := by decide
  obtain ⟨hr, hl⟩ := produceK_reach 101 (bridge_init demoLongRun)
    (by rw [hlen]; omega)
  refine ⟨rfl, hr, ?_⟩
  rw [hl]
  rfl

/-- Claim C8 (amended): the queue is unbounded (maxsize 0): the put of
the producer task never blocks, and for every n up to the length of the
producer trace a state with queue length exactly n is reachable. -/
theorem queue_growth_unbounded (n : Nat) (run : ProducerRun)
    (h : n ≤ (run_workflow_queue run).length) :
    event_queue_maxsize = 0
    ∧ BridgeReach run (produceK n (bridge_init run))
    ∧ (produceK n (bridge_init run)).queue.length = n := by
  obtain ⟨hr, hl⟩ := produceK_reach n (bridge_init run) h
  refine ⟨rfl, hr, ?_⟩
  rw [hl]
  simp [bridge_init]

/-- Witness for the amended C8 theorem at n = 2 with the one-event
producer run. -/
theorem queue_growth_unbounded_witness :
    2 ≤ (run_workflow_queue demoNormalRun).length
    ∧ (produceK 2 (bridge_init demoNormalRun)).queue.length = 2 :=
  ⟨by decide, (queue_growth_unbounded 2 demoNormalRun (by decide)).2.2⟩

/-- Claim C9, the code at the failing input: when the consumer detaches,
the async generator is closed and GeneratorExit is raised at the yield;
GeneratorExit is not an Exception subclass, so the except Exception
clause of the streaming loop never runs and workflow_task.cancel() is
not called, while a thrown Exception does trigger cancellation. -/
theorem detach_does_not_cancel :
    (streaming_loop_interrupt PyExcClass.generatorExit).taskCancelled = false
    ∧ is_Exception_subclass PyExcClass.generatorExit = false
    ∧ (∀ e : PyExcClass, (streaming_loop_interrupt e).taskCancelled
        = is_Exception_subclass e) :=
  ⟨rfl, rfl, fun e => by cases e <;> rfl⟩

/-!  Claim theorems: orchestrator initialization.  -/

/-- Claim C7: all_tools built by TravelWorkflowOrchestrator.initialize
equals the concatenation, in enabled-server order then catalog order, of
the catalogs of exactly the configured servers whose tool fetch
succeeded, and every tool in it comes from such a server — never from
one whose fetch failed. -/
theorem all_tools_from_successful_servers (cfgIds enabled : List String)
    (fetch : String → ToolFetchOutcome) :
    ((initialize_tools cfgIds enabled fetch).all_tools
      = (enabled.filter
          (fun i => cfgIds.contains i && (fetch i).isOk)).flatMap
          (fun i => (fetch i).toolsOr))
    ∧ (∀ t ∈ (initialize_tools cfgIds enabled fetch).all_tools,
        ∃ i, i ∈ enabled ∧ cfgIds.contains i = true
          ∧ ∃ ts, fetch i = ToolFetchOutcome.ok ts ∧ t ∈ ts) := by
  have h1 : (initialize_tools cfgIds enabled fetch).all_tools
      = (enabled.filter
          (fun i => cfgIds.contains i && (fetch i).isOk)).flatMap
          (fun i => (fetch i).toolsOr) := by
    have h := init_tools_loop_all_tools cfgIds fetch enabled ⟨[], []⟩
    simpa [initialize_tools] using h
  refine ⟨h1, ?_⟩
  intro t ht
  rw [h1, List.mem_flatMap] at ht
  obtain ⟨i, hi, hti⟩ := ht
  rw [List.mem_filter] at hi
  obtain ⟨hien, hcond⟩ := hi
  rw [Bool.and_eq_true] at hcond
  obtain ⟨hcont, hok⟩ := hcond
  cases hf : fetch i with
  | ok ts =>
    refine ⟨i, hien, hcont, ts, hf, ?_⟩
    rw [hf] at hti
    simpa [ToolFetchOutcome.toolsOr] using hti
  | failed msg =>
    rw [hf] at hok
    simp [ToolFetchOutcome.isOk] at hok

/-- Witness for C7: with a two-server configuration where only
customer-query fetches successfully, the query tool is in all_tools and
originates from a successfully fetched configured server. -/
theorem all_tools_witness :
    "query_tool" ∈ (initialize_tools ["customer-query", "itinerary-planning"]
        default_enabled_tools demoFetch).all_tools
    ∧ ∃ i, i ∈ default_enabled_tools
        ∧ (["customer-query", "itinerary-planning"] : List String).contains i
            = true
        ∧ ∃ ts, demoFetch i = ToolFetchOutcome.ok ts ∧ "query_tool" ∈ ts :=
  ⟨by decide,
    (all_tools_from_successful_servers ["customer-query", "itinerary-planning"]
        default_enabled_tools demoFetch).2 "query_tool" (by decide)⟩

end TravelAgents
